import Mathlib

/-!
Verification development for the PII/PHI detection-and-redaction pipeline
implemented in `src/main.py` of the coach-sophia-ai-anonymizer repository.

Texts are modelled as `List Char` (the service handles ASCII payloads), and
Python slices `text[a:b]` with non-negative bounds become
`(text.take b).drop a`.  Confidence scores are Python floats that only ever
flow through `max` and equality, so they are modelled as rationals.
All definitions below are transcribed from the source file; section comments
cite the corresponding Python function names.
-/

namespace Anonymizer

/-- Convenience: the characters of a string literal. -/
def str (s : String) : List Char := s.toList

/-- Python whitespace for `str.strip`/`str.split` (ASCII subset). -/
def pyIsSpace (c : Char) : Bool :=
  c = ' ' || c = '\t' || c = '\n' || c = '\r' || c = Char.ofNat 11 || c = Char.ofNat 12

/-- Python `text[a:b]` for non-negative `a`, `b`. -/
def pySlice (text : List Char) (a b : Nat) : List Char :=
  (text.take b).drop a

/-- Python `s.strip()` (ASCII whitespace). -/
def pyStrip (l : List Char) : List Char :=
  ((l.dropWhile pyIsSpace).reverse.dropWhile pyIsSpace).reverse

/-- Python `s.lower()` (ASCII). -/
def pyLower (l : List Char) : List Char := l.map Char.toLower

/-- Python `s.upper()` on a `String`-typed entity name (ASCII).  Defined
    through `String.data` so that it reduces inside the kernel. -/
def pyUpperS (s : String) : String := String.mk (s.data.map Char.toUpper)

/-- Python `s.split()` (split on whitespace runs, no empty words). -/
def pyWordsAux : List Char → List Char → List (List Char)
  | [], acc => if acc.isEmpty then [] else [acc.reverse]
  | c :: rest, acc =>
    if pyIsSpace c then
      if acc.isEmpty then pyWordsAux rest [] else acc.reverse :: pyWordsAux rest []
    else pyWordsAux rest (c :: acc)

def pyWords (l : List Char) : List (List Char) := pyWordsAux l []

/-- Python `needle in hay` (substring containment). -/
def containsSub (needle : List Char) : List Char → Bool
  | [] => needle.isEmpty
  | c :: rest => needle.isPrefixOf (c :: rest) || containsSub needle rest

/-- Python `s.isdigit()` for ASCII strings. -/
def pyIsDigitStr (l : List Char) : Bool := !l.isEmpty && l.all Char.isDigit

/-- Python `s.isalpha()` for ASCII strings. -/
def pyIsAlphaStr (l : List Char) : Bool := !l.isEmpty && l.all Char.isAlpha

/-- The apostrophe character (39), used to build the words of the source
    that contain one. -/
def apos : Char := Char.ofNat 39

/-- The word i-apostrophe-v-e from `COMMON_WORDS_NOT_PII`. -/
def wIve : List Char := ['i', apos, 'v', 'e']

/-- The startswith fragment i-apostrophe-v-e-space used in
    `should_anonymize_entity`. -/
def wIveSp : List Char := ['i', apos, 'v', 'e', ' ']

/-- The org keyword apostrophe-s used in `get_replacement`. -/
def kwAposS : List Char := [apos, 's']

/-! ### Entity spans (the dict records of `main.py`) -/

/-- An entity span as passed through the pipeline.  `stop` models the
    Python key `end` (a Lean keyword). -/
structure Entity where
  entity_type : String
  start : Nat
  stop : Nat
  text : List Char
  score : ℚ
  method : String
deriving DecidableEq, Repr

/-- A raw ML analyzer result (`RecognizerResult`): `{entity_type, start, end, score}`. -/
structure MlResult where
  entity_type : String
  start : Nat
  stop : Nat
  score : ℚ
deriving DecidableEq, Repr

/-- A redaction record emitted by `apply_replacements`. -/
structure Record where
  start : Nat
  stop : Nat
  entity_type : String
  original : List Char
  replacement : List Char
deriving DecidableEq, Repr

/-- Two spans do not overlap (`a.end <= b.start or a.start >= b.end`). -/
def disjointE (a b : Entity) : Prop := a.stop ≤ b.start ∨ b.stop ≤ a.start

instance : DecidableRel disjointE := fun a b => by
  unfold disjointE; infer_instance

/-! ### `_STATIC_REPLACEMENTS` and `get_replacement` -/

/-- The `_STATIC_REPLACEMENTS` dict, including the international-ID types
    added by the loop right below it in the source.  All keys are distinct,
    so an association list is a faithful model. -/
def staticReplacements : List (String × String) := [
  ("LOCATION", "[redacted location]"), ("GPE", "[redacted location]"),
  ("LOC", "[redacted location]"), ("STREET_ADDRESS", "[redacted location]"),
  ("CITY_STATE", "[redacted location]"), ("STATE_ABBREVIATION", "[redacted location]"),
  ("APT_UNIT", "[redacted location]"), ("ADDRESS", "[redacted location]"),
  ("CITY", "[redacted location]"), ("STATE", "[redacted location]"),
  ("COUNTRY", "[redacted location]"),
  ("EMAIL_ADDRESS", "[redacted email]"), ("PHONE_NUMBER", "[redacted phone]"),
  ("FAX_NUMBER", "[redacted phone]"),
  ("AGE", "[redacted age]"), ("AGE_OVER_89", "[redacted age]"), ("AGE_GENERAL", "[redacted age]"),
  ("CREDIT_CARD", "[redacted card]"), ("IBAN_CODE", "[redacted account]"),
  ("ACCOUNT_NUMBER", "[redacted account]"), ("ROUTING_NUMBER", "[redacted account]"),
  ("BANK_ACCOUNT", "[redacted account]"), ("SWIFT_CODE", "[redacted account]"),
  ("SSN", "[redacted SSN]"), ("US_SSN", "[redacted SSN]"),
  ("US_PASSPORT", "[redacted ID]"), ("US_DRIVER_LICENSE", "[redacted ID]"),
  ("DRIVER_LICENSE", "[redacted ID]"), ("PASSPORT", "[redacted ID]"),
  ("PASSPORT_NUMBER", "[redacted ID]"), ("TAX_ID", "[redacted ID]"),
  ("NATIONAL_ID", "[redacted ID]"),
  ("IP_ADDRESS", "[redacted IP]"), ("URL", "[redacted URL]"),
  ("ZIP_CODE", "[redacted zip]"),
  ("DATE_OF_BIRTH", "[redacted DOB]"), ("DOB", "[redacted DOB]"), ("BIRTHDAY", "[redacted DOB]"),
  ("MEDICAL_RECORD_NUMBER", "[redacted medical]"), ("HEALTH_PLAN_NUMBER", "[redacted medical]"),
  ("MEDICAL_RECORD", "[redacted medical]"), ("PATIENT_ID", "[redacted medical]"),
  ("PRESCRIPTION_NUMBER", "[redacted medical]"), ("NPI_NUMBER", "[redacted medical]"),
  ("DEA_NUMBER", "[redacted medical]"), ("MEDICAL_LICENSE", "[redacted medical]"),
  ("INSURANCE_NUMBER", "[redacted medical]"), ("POLICY_NUMBER", "[redacted medical]"),
  ("MEMBER_ID", "[redacted medical]"), ("INSURANCE_POLICY_NUMBER", "[redacted medical]"),
  ("GENDER", "[redacted gender]"), ("GENDER_EXPLICIT", "[redacted gender]"),
  ("BIOMETRIC_ID", "[redacted]"), ("GENETIC_MARKER", "[redacted]"),
  ("FINGERPRINT", "[redacted]"), ("DNA_SEQUENCE", "[redacted]"),
  ("VIN", "[redacted vehicle]"), ("LICENSE_PLATE", "[redacted vehicle]"),
  ("VEHICLE_REGISTRATION", "[redacted vehicle]"),
  ("DEVICE_ID", "[redacted device]"), ("SERIAL_NUMBER", "[redacted device]"),
  ("MAC_ADDRESS", "[redacted device]"), ("IMEI", "[redacted device]"),
  ("CERTIFICATE_NUMBER", "[redacted ID]"), ("LICENSE_NUMBER", "[redacted ID]"),
  ("API_KEY", "[redacted credential]"), ("PASSWORD", "[redacted credential]"),
  ("ACCESS_TOKEN", "[redacted credential]"), ("SECRET_KEY", "[redacted credential]"),
  ("AUTH_TOKEN", "[redacted credential]"),
  ("USERNAME", "[redacted username]"),
  ("CRYPTO", "[redacted]"), ("CRYPTO_WALLET", "[redacted]"),
  ("ETHNICITY", "[redacted]"), ("RACE", "[redacted]"),
  ("RELIGION", "[redacted]"), ("SEXUAL_ORIENTATION", "[redacted]"),
  ("MARITAL_STATUS", "[redacted]"), ("NRP", "[redacted]"),
  ("AADHAAR_NUMBER", "[redacted ID]"), ("PAN_NUMBER", "[redacted ID]"),
  ("PAN", "[redacted ID]"), ("INDIAN_PASSPORT", "[redacted ID]"),
  ("CANADIAN_SIN", "[redacted ID]"), ("MEXICAN_CURP", "[redacted ID]"),
  ("BRAZILIAN_CPF", "[redacted ID]"), ("ARGENTINIAN_DNI", "[redacted ID]"),
  ("CHILEAN_RUN", "[redacted ID]"), ("COLOMBIAN_CEDULA", "[redacted ID]"),
  ("VENEZUELAN_ID", "[redacted ID]"), ("UK_NINO", "[redacted ID]"),
  ("SPANISH_DNI", "[redacted ID]"), ("SPANISH_NIE", "[redacted ID]"),
  ("ITALIAN_CF", "[redacted ID]"), ("FINNISH_PIN", "[redacted ID]"),
  ("IRELAND_PPSN", "[redacted ID]"), ("HONG_KONG_ID", "[redacted ID]"),
  ("TAIWAN_ID", "[redacted ID]"), ("SINGAPORE_NRIC", "[redacted ID]"),
  ("PAKISTAN_CNIC", "[redacted ID]"), ("THAI_ID", "[redacted ID]"),
  ("UAE_CIVIL_NUMBER", "[redacted ID]"), ("NEW_ZEALAND_NHI", "[redacted ID]"),
  ("SOUTH_AFRICAN_ID", "[redacted ID]"), ("DUTCH_BSN", "[redacted ID]"),
  ("ISRAELI_ID", "[redacted ID]"), ("BAHRAIN_ID", "[redacted ID]"),
  ("CAMBODIA_ID", "[redacted ID]"), ("CROATIAN_OIB", "[redacted ID]"),
  ("NIGERIAN_NIN", "[redacted ID]"), ("ESTONIA_ID", "[redacted ID]"),
  ("LITHUANIA_ID", "[redacted ID]"), ("JAPANESE_MY_NUMBER", "[redacted ID]"),
  ("KUWAIT_CIVIL_ID", "[redacted ID]"), ("CHINESE_ID_OLD", "[redacted ID]"),
  ("INDONESIAN_NIK", "[redacted ID]"), ("CHINESE_ID", "[redacted ID]"),
  ("VIETNAMESE_ID", "[redacted ID]"), ("KENYAN_ID", "[redacted ID]"),
  ("ETHIOPIAN_ID", "[redacted ID]"), ("MOROCCAN_ID", "[redacted ID]"),
  ("BANGLADESH_NID", "[redacted ID]"), ("CZECH_BIRTH_NUMBER", "[redacted ID]"),
  ("SLOVAK_BIRTH_NUMBER", "[redacted ID]"), ("SAUDI_NATIONAL_ID", "[redacted ID]"),
  ("PORTUGUESE_NIF", "[redacted ID]"), ("SLOVENIAN_EMSO", "[redacted ID]"),
  ("EGYPTIAN_ID", "[redacted ID]"),
  ("AUSTRALIAN_TFN", "[redacted ID]"), ("NEW_ZEALAND_IRD", "[redacted ID]")]

/-- Python `_STATIC_REPLACEMENTS.get(upper, "[redacted]")`. -/
def staticLookup (u : String) : List Char :=
  match staticReplacements.find? (fun kv => kv.1 = u) with
  | some kv => str kv.2
  | none => str "[redacted]"

/-- `get_replacement(entity_type, original_text)` from `main.py`. -/
def get_replacement (entity_type : String) (original_text : List Char) : List Char :=
  let upper := pyUpperS entity_type
  if ["PERSON", "PER", "NAME", "PATIENT_NAME"].contains upper then
    -- first = original_text.strip()[:1].upper() if original_text.strip() else ""
    let first := ((pyStrip original_text).take 1).map Char.toUpper
    -- return first if first.isalpha() else "[redacted name]"
    if pyIsAlphaStr first then first else str "[redacted name]"
  else if ["ORG", "ORGANIZATION", "COMPANY_NAME", "ORGANIZATION_NAME"].contains upper then
    let lower := pyLower original_text
    if [str "school", str "university", str "college", str "academy", kwAposS,
        str "st "].any (fun kw => containsSub kw lower) then
      str "[redacted school]"
    else str "[redacted organization]"
  else if ["INSTITUTION_NAME", "INSTITUTION"].contains upper then
    str "[redacted institution]"
  else if ("SCHOOL_NAME".toList).isPrefixOf upper.toList then
    str "[redacted school]"
  else staticLookup upper

/-! ### `should_anonymize_entity` -/

/-- `EXCLUDED_ENTITY_TYPES` from `main.py`. -/
def EXCLUDED_ENTITY_TYPES : List String := [
  "DATE", "DATE_TIME", "TIME", "DATE_FULL", "DATE_ISO",
  "ADMISSION_DATE", "DISCHARGE_DATE", "DEATH_DATE",
  "CARDINAL", "ORDINAL", "QUANTITY", "MONEY", "PERCENT",
  "NORP", "EVENT", "WORK_OF_ART", "LAW", "LANGUAGE", "PRODUCT", "FAC",
  "DUTCH_BSN", "ISRAELI_ID", "BAHRAIN_ID", "CAMBODIA_ID", "CROATIAN_OIB",
  "NIGERIAN_NIN", "ESTONIA_ID", "LITHUANIA_ID", "JAPANESE_MY_NUMBER",
  "KUWAIT_CIVIL_ID", "CHINESE_ID_OLD", "INDONESIAN_NIK", "CHINESE_ID",
  "COLOMBIAN_CEDULA", "VIETNAMESE_ID", "KENYAN_ID", "ETHIOPIAN_ID",
  "MOROCCAN_ID", "BANGLADESH_NID", "CZECH_BIRTH_NUMBER", "SLOVAK_BIRTH_NUMBER",
  "SAUDI_NATIONAL_ID", "PORTUGUESE_NIF", "SLOVENIAN_EMSO", "EGYPTIAN_ID"]

/-- `BIRTH_DATE_ENTITY_TYPES` from `main.py`. -/
def BIRTH_DATE_ENTITY_TYPES : List String :=
  ["DATE_OF_BIRTH", "DOB", "BIRTH_DATE", "BIRTHDAY"]

/-- `COMMON_WORDS_NOT_PII` from `should_anonymize_entity`. -/
def COMMON_WORDS_NOT_PII : List (List Char) := [
  str "patient", str "doctor", str "nurse", str "user", str "client",
  str "customer", str "admin",
  str "manager", str "director", str "ceo", str "cfo", str "cto",
  str "president", str "chairman",
  str "monday", str "tuesday", str "wednesday", str "thursday", str "friday",
  str "saturday", str "sunday",
  str "january", str "february", str "march", str "april", str "may",
  str "june", str "july",
  str "august", str "september", str "october", str "november", str "december",
  str "morning", str "afternoon", str "evening", str "night", str "today",
  str "tomorrow", str "yesterday",
  str "ok", str "okay", str "yes", str "no", str "hello", str "hi", str "bye",
  str "thanks", str "thank",
  str "please", str "sorry", str "help", str "need", str "want", str "like",
  str "love", str "hate",
  str "good", str "bad", str "great", str "nice", str "best", str "worst",
  str "first", str "last",
  str "new", str "old", str "big", str "small", str "high", str "low",
  str "fast", str "slow",
  str "the", str "and", str "but", str "for", str "with", str "this",
  str "that", str "these", str "those",
  str "tech", str "technology", str "technologies", str "software",
  str "hardware", str "internet",
  str "web", str "mobile", str "app", str "apps", str "digital", str "data",
  str "cloud", str "ai", str "ml",
  str "seen", str "see", str "saw", str "evolve", str "evolved", str "evolving",
  str "ve", str "ive", wIve, str "have", str "has", str "had", str "been",
  str "being", str "be",
  str "coaching", str "therapy", str "session", str "practice", str "clinic",
  str "mindfulness", str "wellness", str "resilience", str "burnout"]

/-- `BROAD_LOCATIONS` from `should_anonymize_entity`. -/
def BROAD_LOCATIONS : List (List Char) := [
  str "earth", str "world", str "global", str "international",
  str "north", str "south", str "east", str "west",
  str "online", str "remote", str "virtual", str "home"]

/-- The hardcoded non-PII IPs of filter 4. -/
def NON_PII_IPS : List (List Char) := [
  str "127.0.0.1", str "0.0.0.0", str "255.255.255.255",
  str "192.168.0.1", str "10.0.0.1"]

/- Matcher for the version-number regex of filter 3,
   anchored v?\d+(\.\d+)+ to the end of the string, case-insensitive on v.
   The character classes are disjoint so the match is deterministic. -/
mutual

def versionAfterFirstDigits : List Char → Bool
  | [] => false
  | c :: rest =>
    if c.isDigit then versionAfterFirstDigits rest
    else if c = '.' then versionGroupStart rest
    else false

def versionGroupStart : List Char → Bool
  | [] => false
  | c :: rest => c.isDigit && versionAfterGroupDigits rest

def versionAfterGroupDigits : List Char → Bool
  | [] => true
  | c :: rest =>
    if c.isDigit then versionAfterGroupDigits rest
    else if c = '.' then versionGroupStart rest
    else false

end

def versionFromDigits : List Char → Bool
  | [] => false
  | c :: rest => c.isDigit && versionAfterFirstDigits rest

/-- Full match of the anchored regex of filter 3. -/
def isVersionNumber (l : List Char) : Bool :=
  match l with
  | c :: rest => if c = 'v' || c = 'V' then versionFromDigits rest else versionFromDigits l
  | [] => false

/-- `should_anonymize_entity(entity_type, entity_text, context)` from `main.py`. -/
def should_anonymize_entity (entity_type : String) (entity_text : List Char)
    (context : List Char) : Bool :=
  let entityUpper := pyUpperS entity_type
  let entityTextClean := pyStrip entity_text
  -- Always anonymize birth date types
  if BIRTH_DATE_ENTITY_TYPES.contains entityUpper then true
  -- Never anonymize excluded types, unless a birth keyword appears in
  -- the context or the entity text itself
  else if EXCLUDED_ENTITY_TYPES.contains entityUpper then
    let contextLower := pyLower context
    let entityLower := pyLower entity_text
    [str "birth", str "born", str "dob", str "d.o.b", str "birthday"].any
      (fun kw => containsSub kw contextLower || containsSub kw entityLower)
  -- Filter 1: minimum length (2 for LOCATION/GPE/LOC, else 3)
  else if entityTextClean.length <
      (if ["LOCATION", "GPE", "LOC"].contains entityUpper then 2 else 3) then false
  -- Filter 2: common words detected as PERSON/ORG
  else if ["PERSON", "ORG", "ORGANIZATION", "COMPANY_NAME"].contains entityUpper
      && ((pyWords (pyLower entityTextClean)).all
            (fun w => COMMON_WORDS_NOT_PII.contains w)
          || COMMON_WORDS_NOT_PII.contains (pyLower entityTextClean)
          || [str "ve ", wIveSp, str "ive "].any
               (fun p => p.isPrefixOf (pyLower entityTextClean))) then false
  -- Filter 3: version numbers
  else if isVersionNumber entityTextClean then false
  -- Filter 4: hardcoded non-PII IPs
  else if entityUpper = "IP_ADDRESS" && NON_PII_IPS.contains entityTextClean then false
  -- Filter 5: short bare numeric strings
  else if pyIsDigitStr entityTextClean && entityTextClean.length < 6 then false
  -- Filter 6: broad/generic location words
  else if ["LOCATION", "GPE", "LOC"].contains entityUpper
      && (BROAD_LOCATIONS.contains (pyLower entityTextClean)
          || (pyWords (pyLower entityTextClean)).all
               (fun w => COMMON_WORDS_NOT_PII.contains w)) then false
  else true

/-! ### `get_protected_ranges` -/

/-- Scan for the non-overlapping occurrences of `pl` in a text suffix the
    way `re.finditer(re.escape(p), t)` reports them: leftmost first,
    resuming after the end of each match.  `pos` is the absolute offset of
    the suffix.  The first argument is recursion fuel; every step consumes
    at least one character, so any fuel of at least the suffix length gives
    the exact scan semantics while keeping the recursion structural. -/
def findOccAux (pl : List Char) : Nat → List Char → Nat → List (Nat × Nat)
  | 0, _, _ => []
  | _, [], _ => []
  | fuel + 1, c :: rest, pos =>
    if pl.isPrefixOf (c :: rest) then
      (pos, pos + pl.length)
        :: findOccAux pl fuel (rest.drop (pl.length - 1)) (pos + pl.length)
    else findOccAux pl fuel rest (pos + 1)

/-- `get_protected_ranges(text, pseudonym)`: all case-insensitive occurrences
    of the pseudonym.  `none` models Python `None`. -/
def get_protected_ranges (text : List Char) (pseudonym : Option (List Char)) :
    List (Nat × Nat) :=
  match pseudonym with
  | none => []
  | some p =>
    if p.isEmpty then [] else findOccAux (pyLower p) text.length (pyLower text) 0

/-! ### ML filtering step of `anonymize` (lines 1619-1653 of `main.py`) -/

/-- The per-result filter of the anonymize endpoint: drop results that
    overlap a protected range or whose matched text contains the pseudonym
    (case-insensitively), then apply `should_anonymize_entity` with a
    ±50-character context window. -/
def filterMl (text : List Char) (pseudonym : Option (List Char))
    (results : List MlResult) : List Entity :=
  let protectedRanges := get_protected_ranges text pseudonym
  results.filterMap (fun r =>
    let entityText := pySlice text r.start r.stop
    let overlapsRange := protectedRanges.any
      (fun pr => !(decide (r.stop ≤ pr.1) || decide (r.start ≥ pr.2)))
    -- if request.pseudonym: containment also counts as overlap
    let overlaps := match pseudonym with
      | some p =>
        if !p.isEmpty && containsSub (pyLower p) (pyLower entityText) then true
        else overlapsRange
      | none => overlapsRange
    if overlaps then none
    else
      let context := pySlice text (r.start - 50) (min text.length (r.stop + 50))
      if should_anonymize_entity r.entity_type entityText context then
        some { entity_type := r.entity_type
               start := r.start
               stop := r.stop
               score := r.score
               text := entityText
               method := "ml" }
      else none)

/-! ### Stable sorting (Python `list.sort` / `sorted` with a key) -/

/-- Stable insertion of `a`: `a` goes in front of the first element `b`
    with `le a b`.  Equal keys therefore keep their original order,
    matching the stability of Python sorts. -/
def insertLe (le : Entity → Entity → Bool) (a : Entity) : List Entity → List Entity
  | [] => [a]
  | b :: bs => if le a b then a :: b :: bs else b :: insertLe le a bs

/-- Stable insertion sort, used to model `sorted(..., key=...)`. -/
def isortBy (le : Entity → Entity → Bool) (l : List Entity) : List Entity :=
  l.foldr (insertLe le) []

/-- Ascending key for `sort(key=lambda x: x["start"])`. -/
def startLe (a b : Entity) : Bool := decide (a.start ≤ b.start)

/-- Descending key for `sorted(..., key=..., reverse=True)`. -/
def startGe (a b : Entity) : Bool := decide (b.start ≤ a.start)

/-! ### `merge_entities` -/

/-- Overlap test of `merge_entities`:
    `not (r_end <= m["start"] or r_start >= m["end"])`. -/
def overlapsB (rStart rStop : Nat) (m : Entity) : Bool :=
  !(decide (rStop ≤ m.start) || decide (rStart ≥ m.stop))

/-- `merge_entities(ml_entities, regex_entities)`: ML spans are all kept;
    each regex span is kept only if it overlaps nothing already accepted
    (including previously accepted regex spans); result sorted by start. -/
def merge_entities (mlEntities regexEntities : List Entity) : List Entity :=
  isortBy startLe
    (regexEntities.foldl
      (fun merged r =>
        if merged.any (overlapsB r.start r.stop) then merged else merged ++ [r])
      mlEntities)

/-! ### `post_process_phone_spans` -/

/-- One entity of the phone-repair pass.  The Python code indexes
    `text[start - 1]` after checking `start > 0`; an index past the end of
    the text would raise `IndexError`, modelled as `none`. -/
def ppPhoneOne (text : List Char) (e : Entity) : Option Entity :=
  if pyUpperS e.entity_type = "PHONE_NUMBER" then
    if e.start > 0 then
      match text.get? (e.start - 1) with
      | none => none
      | some c =>
        if c = '(' then
          some { e with start := e.start - 1, text := pySlice text (e.start - 1) e.stop }
        else some e
    else some e
  else some e

/-- `post_process_phone_spans(entities, text)`. -/
def post_process_phone_spans : List Entity → List Char → Option (List Entity)
  | [], _ => some []
  | e :: rest, text =>
    match ppPhoneOne text e with
    | none => none
    | some e2 =>
      match post_process_phone_spans rest text with
      | none => none
      | some r => some (e2 :: r)

/-- `text` contains two adjacent opening parentheses. -/
def hasDoubleParen : List Char → Bool
  | c1 :: c2 :: rest => (c1 = '(' && c2 = '(') || hasDoubleParen (c2 :: rest)
  | _ => false

/-! ### `merge_adjacent_locations` -/

/-- `LOCATION_TYPES` from `merge_adjacent_locations`. -/
def LOCATION_TYPES : List String := [
  "LOCATION", "GPE", "LOC", "STREET_ADDRESS", "CITY_STATE",
  "STATE_ABBREVIATION", "APT_UNIT", "ZIP_CODE", "ADDRESS"]

/-- `e.get("entity_type", "").upper() in LOCATION_TYPES`. -/
def isLocationType (e : Entity) : Bool :=
  LOCATION_TYPES.contains (pyUpperS e.entity_type)

/-- The gap-separator class `[\s,.\-\d]` of the merge condition. -/
def gapSepChar (c : Char) : Bool :=
  pyIsSpace c || c = ',' || c = '.' || c = '-' || c.isDigit

/-- Full match of `^[\s,.\-\d]*$` against the gap text. -/
def gapSepOnly (l : List Char) : Bool := l.all gapSepChar

/-- The coalescing loop: `prev` is the last element of `merged_locations`,
    extended in place whenever the next location is close enough. -/
def coalesceLocs (text : List Char) (prev : Entity) : List Entity → List Entity
  | [] => [prev]
  | loc :: rest =>
    let gapStart := prev.stop
    let gapEnd := loc.start
    let gapText := pySlice text gapStart gapEnd
    if gapEnd - gapStart ≤ 20 && gapSepOnly gapText then
      coalesceLocs text
        { prev with
          stop := loc.stop
          text := pySlice text prev.start loc.stop
          entity_type := "LOCATION"
          score := max prev.score loc.score } rest
    else prev :: coalesceLocs text loc rest

/-- Regex word character for the boundary of the ZIP pattern. -/
def wordChar (c : Char) : Bool := c.isAlphanum || c = '_'

/-- A `\b` boundary right after a digit: next char absent or not a word char. -/
def boundaryOk : List Char → Bool
  | [] => true
  | c :: _ => !wordChar c

/-- Number of characters consumed by `\d{5}(?:-\d{4})?\b` at the head of
    `l`, trying the longer alternative first (greedy optional group with
    backtracking), or `none`. -/
def zipCore : List Char → Option Nat
  | a :: b :: c :: d :: e :: rest =>
    if a.isDigit && b.isDigit && c.isDigit && d.isDigit && e.isDigit then
      match rest with
      | '-' :: f :: g :: h :: i :: rest2 =>
        if f.isDigit && g.isDigit && h.isDigit && i.isDigit && boundaryOk rest2 then
          some 10
        else if boundaryOk rest then some 5 else none
      | _ => if boundaryOk rest then some 5 else none
    else none
  | _ => none

/-- `re.match(r"^[\s,]*(\d{5}(?:-\d{4})?)\b", remaining)`: the end offset of
    the match, if any. -/
def zipMatchEnd (l : List Char) : Option Nat :=
  let lead := l.takeWhile (fun c => pyIsSpace c || c = ',')
  match zipCore (l.drop lead.length) with
  | some k => some (lead.length + k)
  | none => none

/-- The trailing-ZIP absorption step, guarded against extending into a
    non-location span. -/
def absorbZip (text : List Char) (nonLocations : List Entity) (loc : Entity) : Entity :=
  match zipMatchEnd (text.drop loc.stop) with
  | none => loc
  | some k =>
    let newEnd := loc.stop + k
    let overlapsOther := nonLocations.any
      (fun e => !(decide (newEnd ≤ e.start) || decide (loc.stop ≥ e.stop)))
    if overlapsOther then loc
    else { loc with stop := newEnd, text := pySlice text loc.start newEnd }

/-- `merge_adjacent_locations(entities, text)`. -/
def merge_adjacent_locations (entities : List Entity) (text : List Char) : List Entity :=
  if entities.isEmpty then entities
  else
    let locations := entities.filter isLocationType
    let nonLocations := entities.filter (fun e => !isLocationType e)
    if locations.length ≤ 1 then entities
    else
      let sortedLocs := isortBy startLe locations
      let mergedLocs :=
        match sortedLocs with
        | [] => []
        | l0 :: ls => coalesceLocs text l0 ls
      let absorbed := mergedLocs.map (absorbZip text nonLocations)
      isortBy startLe (nonLocations ++ absorbed)

/-! ### `apply_replacements` -/

/-- The record built for one accepted span. -/
def mkRecord (text : List Char) (e : Entity) : Record :=
  { start := e.start
    stop := e.stop
    entity_type := e.entity_type
    original := pySlice text e.start e.stop
    replacement := get_replacement e.entity_type (pySlice text e.start e.stop) }

/-- The splice of one replacement into the accumulating result string, at
    the original coordinates of `e`; the replacement itself is computed
    from the original text. -/
def spliceAt (text acc : List Char) (e : Entity) : List Char :=
  acc.take e.start ++ get_replacement e.entity_type (pySlice text e.start e.stop)
    ++ acc.drop e.stop

/-- A span is actually applied: its replacement differs from its original
    substring and its offsets are valid (`start < 0` cannot occur with
    natural-number offsets). -/
def keepB (text : List Char) (e : Entity) : Bool :=
  decide (get_replacement e.entity_type (pySlice text e.start e.stop)
      ≠ pySlice text e.start e.stop)
    && decide (e.start < e.stop) && decide (e.stop ≤ text.length)

/-- The processing loop of `apply_replacements`: spans in descending start
    order; skip no-op replacements, then invalid offsets; otherwise splice
    into the accumulated text.  Records are consed, which equals Python's
    append-then-reverse. -/
def applyLoop (text : List Char) : List Entity → List Char → List Record →
    List Char × List Record
  | [], acc, recs => (acc, recs)
  | e :: rest, acc, recs =>
    let original := pySlice text e.start e.stop
    let replacement := get_replacement e.entity_type original
    if replacement = original then applyLoop text rest acc recs
    else if e.stop > text.length ∨ e.start ≥ e.stop then applyLoop text rest acc recs
    else
      applyLoop text rest (acc.take e.start ++ replacement ++ acc.drop e.stop)
        (mkRecord text e :: recs)

/-- `apply_replacements(text, entities)`. -/
def apply_replacements (text : List Char) (entities : List Entity) :
    List Char × List Record :=
  if entities.isEmpty then (text, [])
  else applyLoop text (isortBy startGe entities) text []

/-- Specification-level redaction: for an ascending, pairwise-disjoint,
    valid list of spans, the original text with each span's substring
    replaced by its replacement. -/
def redactAsc (text : List Char) : List Entity → List Char
  | [] => text
  | e :: rest =>
    text.take e.start
      ++ get_replacement e.entity_type (pySlice text e.start e.stop)
      ++ (redactAsc text rest).drop e.stop

/-! ### The `/anonymize` pipeline -/

/-- The ML entities of the anonymize endpoint: the filtered analyzer
    results, or the empty list when the model detector throws (the inner
    `except` swallows the failure). -/
def mlEntitiesOf (mlOutcome : Except Unit (List MlResult)) (text : List Char)
    (pseudonym : Option (List Char)) : List Entity :=
  match mlOutcome with
  | .error _ => []
  | .ok rs => filterMl text pseudonym rs

/-- The primary `/anonymize` flow (the body of the endpoint's outer `try`).
    Step 2 (supplementary regex detection) is disabled in the source - the
    call is commented out and `regex_entities = []` - which is transcribed
    literally here.  `none` models an exception escaping to the outer
    handler. -/
def anonymizePrimary (mlOutcome : Except Unit (List MlResult)) (text : List Char)
    (pseudonym : Option (List Char)) : Option (List Char × List Record) :=
  let mlEntities := mlEntitiesOf mlOutcome text pseudonym
  let regexEntities : List Entity := []
  let merged := merge_entities mlEntities regexEntities
  match post_process_phone_spans merged text with
  | none => none
  | some l => some (apply_replacements text (merge_adjacent_locations l text))

/-! ### Concrete instances used by the claim theorems -/

/-- C1: an input carrying an SSN (concrete scenario 2 of the spec). -/
def c1text : List Char := str "SSN: 123-45-6789"

/-- C2: two overlapping model spans. -/
def c2mlA : Entity :=
  { entity_type := "PERSON", start := 0, stop := 5, text := str "aaaaa",
    score := 1, method := "ml" }

def c2mlB : Entity :=
  { entity_type := "PERSON", start := 2, stop := 7, text := str "aaabb",
    score := 1, method := "ml" }

/-- C2: a phone span whose left extension collides with its neighbour. -/
def c2phoneText : List Char := str "ab(12"

def c2phoneIn : List Entity :=
  [{ entity_type := "LOCATION", start := 0, stop := 3, text := str "ab(",
     score := 1, method := "ml" },
   { entity_type := "PHONE_NUMBER", start := 3, stop := 5, text := str "12",
     score := 1, method := "ml" }]

def c2phoneOut : List Entity :=
  [{ entity_type := "LOCATION", start := 0, stop := 3, text := str "ab(",
     score := 1, method := "ml" },
   { entity_type := "PHONE_NUMBER", start := 2, stop := 5, text := str "(12",
     score := 1, method := "ml" }]

/-- C2: two locations whose separator-and-digit gap contains a non-location
    span, which the coalescing step swallows. -/
def c2locText : List Char := str "Oslo 1234567890 Rome"

def c2locIn : List Entity :=
  [{ entity_type := "GPE", start := 0, stop := 4, text := str "Oslo",
     score := 1, method := "ml" },
   { entity_type := "PHONE_NUMBER", start := 5, stop := 15, text := str "1234567890",
     score := 1, method := "ml" },
   { entity_type := "GPE", start := 16, stop := 20, text := str "Rome",
     score := 1, method := "ml" }]

/-- C2: inputs for the witness of the amended merger claim. -/
def c2wMl : List Entity :=
  [{ entity_type := "PERSON", start := 0, stop := 3, text := str "Bob",
     score := 1, method := "ml" }]

def c2wRegex : List Entity :=
  [{ entity_type := "SSN", start := 10, stop := 21, text := str "123-45-6789",
     score := 1, method := "supplementary_regex" },
   { entity_type := "ZIP_CODE", start := 12, stop := 17, text := str "3-45-",
     score := 1, method := "supplementary_regex" }]

/-- C3: the city text and the two model spans around the pseudonym comma. -/
def c3text : List Char := str "Oakland, CA"

def c3ml : List MlResult :=
  [{ entity_type := "GPE", start := 0, stop := 7, score := 1 },
   { entity_type := "GPE", start := 9, stop := 11, score := 1 }]

def c3rec : Record :=
  { start := 0, stop := 11, entity_type := "LOCATION",
    original := str "Oakland, CA", replacement := str "[redacted location]" }

/-- C3: witness inputs for the amended claim. -/
def c3wText : List Char := str "I met Bob today user1"

def c3wMl : List MlResult := [{ entity_type := "PERSON", start := 6, stop := 9, score := 1 }]

def c3wMid : List Entity :=
  [{ entity_type := "PERSON", start := 6, stop := 9, text := str "Bob",
     score := 1, method := "ml" }]

/-- Modelled from the spec (C5): "the first alphabetic character of the
    trimmed original text, uppercased"; `none` when no alphabetic character
    exists. -/
def specPersonInitial (original : List Char) : Option Char :=
  ((pyStrip original).find? Char.isAlpha).map Char.toUpper

/-- C6: a family of two-location inputs whose merged span grows without
    bound: `n+1` letters, one space, `n+1` letters. -/
def bigText (n : Nat) : List Char :=
  List.replicate (n + 1) 'a' ++ ' ' :: List.replicate (n + 1) 'a'

def bigLoc1 (n : Nat) : Entity :=
  { entity_type := "GPE", start := 0, stop := n + 1,
    text := List.replicate (n + 1) 'a', score := 1, method := "ml" }

def bigLoc2 (n : Nat) : Entity :=
  { entity_type := "GPE", start := n + 2, stop := 2 * n + 3,
    text := List.replicate (n + 1) 'a', score := 1, method := "ml" }

def bigMerged (n : Nat) : Entity :=
  { entity_type := "LOCATION", start := 0, stop := 2 * n + 3,
    text := bigText n, score := 1, method := "ml" }

/-- C6, as stated by the spec: for some gap threshold `G` and some maximum
    length cap `L`, two consecutive location-family spans merge exactly when
    the gap is small, the gap text is separators only, and the merged span
    does not exceed the cap. -/
def c6_claim : Prop :=
  ∃ G L : Nat, ∀ (text : List Char) (e1 e2 : Entity),
    isLocationType e1 = true → isLocationType e2 = true → e1.stop ≤ e2.start →
    ((merge_adjacent_locations [e1, e2] text).length = 1 ↔
      (e2.start - e1.stop ≤ G ∧ gapSepOnly (pySlice text e1.stop e2.start) = true ∧
        e2.stop - e1.start ≤ L))

/-- C6: witness inputs (concrete scenario 3 of the spec). -/
def c6text : List Char := str "Oakland, CA"

def c6e1 : Entity :=
  { entity_type := "GPE", start := 0, stop := 7, text := str "Oakland",
    score := 2, method := "ml" }

def c6e2 : Entity :=
  { entity_type := "GPE", start := 9, stop := 11, text := str "CA",
    score := 1, method := "ml" }

/-- C7/C8/C9/C10: witness inputs. -/
def c7text : List Char := str "SSN: 123-45-6789"

def c7ents : List Entity :=
  [{ entity_type := "SSN", start := 5, stop := 16, text := str "123-45-6789",
     score := 1, method := "fallback_regex" }]

def c8text : List Char := str "(555) 123"

def c8ents : List Entity :=
  [{ entity_type := "PHONE_NUMBER", start := 1, stop := 9, text := str "555) 123",
     score := 1, method := "ml" }]

def c9text : List Char := str "Bob lives Oakland"

def c9ents : List Entity :=
  [{ entity_type := "PERSON", start := 0, stop := 3, text := str "Bob",
     score := 1, method := "ml" },
   { entity_type := "GPE", start := 10, stop := 17, text := str "Oakland",
     score := 1, method := "ml" }]

def c10text : List Char := str "call Bob"

def c10p : List Char := str "bob"

def c10res : List MlResult := [{ entity_type := "PERSON", start := 5, stop := 8, score := 1 }]

/-! ## Helper lemmas -/

theorem insertLe_perm (le : Entity → Entity → Bool) (a : Entity) (l : List Entity) :
    List.Perm (insertLe le a l) (a :: l) := by
  induction l with
  | nil => exact List.Perm.refl _
  | cons b bs ih =>
    by_cases h : le a b
    · simp [insertLe, h]
    · simp only [insertLe, h, if_false, Bool.false_eq_true]
      exact (ih.cons b).trans (List.Perm.swap a b bs)

theorem isortBy_perm (le : Entity → Entity → Bool) (l : List Entity) :
    List.Perm (isortBy le l) l := by
  induction l with
  | nil => exact List.Perm.refl _
  | cons a bs ih =>
    exact (insertLe_perm le a (isortBy le bs)).trans (ih.cons a)

theorem insertLe_pairwise (le : Entity → Entity → Bool)
    (htot : ∀ a b, le a b = true ∨ le b a = true)
    (htrans : ∀ a b c, le a b = true → le b c = true → le a c = true)
    (a : Entity) (l : List Entity) (hl : l.Pairwise (fun x y => le x y = true)) :
    (insertLe le a l).Pairwise (fun x y => le x y = true) := by
  induction l with
  | nil => simp [insertLe]
  | cons b bs ih =>
    rw [List.pairwise_cons] at hl
    obtain ⟨hb, hbs⟩ := hl
    by_cases h : le a b
    · simp only [insertLe, h, if_true]
      rw [List.pairwise_cons]
      refine ⟨?_, List.pairwise_cons.mpr ⟨hb, hbs⟩⟩
      intro x hx
      rcases List.mem_cons.mp hx with rfl | hx
      · exact h
      · exact htrans a b x h (hb x hx)
    · simp only [insertLe, h, if_false, Bool.false_eq_true]
      rw [List.pairwise_cons]
      refine ⟨?_, ih hbs⟩
      intro x hx
      have hmem := (insertLe_perm le a bs).mem_iff.mp hx
      rcases List.mem_cons.mp hmem with rfl | hx2
      · rcases htot x b with h1 | h1
        · exact absurd h1 (by simpa using h)
        · exact h1
      · exact hb x hx2

theorem isortBy_pairwise (le : Entity → Entity → Bool)
    (htot : ∀ a b, le a b = true ∨ le b a = true)
    (htrans : ∀ a b c, le a b = true → le b c = true → le a c = true)
    (l : List Entity) :
    (isortBy le l).Pairwise (fun x y => le x y = true) := by
  induction l with
  | nil => simp [isortBy]
  | cons a bs ih => exact insertLe_pairwise le htot htrans a (isortBy le bs) ih

theorem startGe_total : ∀ a b : Entity, startGe a b = true ∨ startGe b a = true := by
  intro a b; simp only [startGe, decide_eq_true_eq]; omega

theorem startGe_trans : ∀ a b c : Entity,
    startGe a b = true → startGe b c = true → startGe a c = true := by
  intro a b c; simp only [startGe, decide_eq_true_eq]; omega

theorem startLe_total : ∀ a b : Entity, startLe a b = true ∨ startLe b a = true := by
  intro a b; simp only [startLe, decide_eq_true_eq]; omega

theorem startLe_trans : ∀ a b c : Entity,
    startLe a b = true → startLe b c = true → startLe a c = true := by
  intro a b c; simp only [startLe, decide_eq_true_eq]; omega

theorem disjointE_symm {a b : Entity} (h : disjointE a b) : disjointE b a := h.symm

/-! ### Phone-repair lemmas -/

theorem hasDoubleParen_spec : ∀ (t : List Char) (i : Nat), hasDoubleParen t = false →
    t.get? i = some '(' → t.get? (i + 1) = some '(' → False
  | [], i, _, h1, _ => by simp at h1
  | [c], _, _, _, h2 => by simp at h2
  | c1 :: c2 :: rest, 0, h, h1, h2 => by
    simp only [hasDoubleParen, Bool.or_eq_false_iff, Bool.and_eq_false_iff] at h
    simp only [List.get?] at h1 h2
    obtain ⟨hh, -⟩ := h
    rcases hh with hh | hh <;> simp_all
  | c1 :: c2 :: rest, i + 1, h, h1, h2 => by
    simp only [hasDoubleParen, Bool.or_eq_false_iff] at h
    exact hasDoubleParen_spec (c2 :: rest) i h.2 (by simpa using h1) (by simpa using h2)

theorem ppPhoneOne_idem (text : List Char) (h : hasDoubleParen text = false)
    (e e2 : Entity) (he : ppPhoneOne text e = some e2) :
    ppPhoneOne text e2 = some e2 := by
  unfold ppPhoneOne at he
  by_cases ht : pyUpperS e.entity_type = "PHONE_NUMBER"
  case neg =>
    rw [if_neg ht] at he
    obtain rfl : e = e2 := by injection he
    unfold ppPhoneOne
    rw [if_neg ht]
  case pos =>
    rw [if_pos ht] at he
    by_cases hs : e.start > 0
    case neg =>
      rw [if_neg hs] at he
      obtain rfl : e = e2 := by injection he
      unfold ppPhoneOne
      rw [if_pos ht, if_neg hs]
    case pos =>
      rw [if_pos hs] at he
      cases hg : text.get? (e.start - 1) with
      | none => rw [hg] at he; cases he
      | some c =>
        rw [hg] at he
        dsimp only at he
        by_cases hc : c = '('
        case neg =>
          rw [if_neg hc] at he
          obtain rfl : e = e2 := by injection he
          unfold ppPhoneOne
          rw [if_pos ht, if_pos hs, hg]
          dsimp only
          rw [if_neg hc]
        case pos =>
          rw [if_pos hc] at he
          have he2 : e2 = { e with
              start := e.start - 1
              text := pySlice text (e.start - 1) e.stop } := by
            injection he with h3
            exact h3.symm
          subst he2
          unfold ppPhoneOne
          dsimp only
          rw [if_pos ht]
          by_cases hs2 : e.start - 1 > 0
          case neg =>
            rw [if_neg hs2]
          case pos =>
            rw [if_pos hs2]
            have hlt : e.start - 1 < text.length := by
              by_contra hge
              rw [List.get?_eq_none.mpr (by omega)] at hg
              cases hg
            have hlt2 : e.start - 1 - 1 < text.length := by omega
            cases hg2 : text.get? (e.start - 1 - 1) with
            | none =>
              exfalso
              have := List.get?_eq_none.mp hg2
              omega
            | some c2 =>
              dsimp only
              by_cases hc2 : c2 = '('
              case pos =>
                exfalso
                subst hc2
                subst hc
                have hidx : e.start - 1 - 1 + 1 = e.start - 1 := by omega
                exact hasDoubleParen_spec text (e.start - 1 - 1) h hg2 (hidx ▸ hg)
              case neg =>
                rw [if_neg hc2]

/-! ### Merge invariant -/

theorem merge_entities_foldl_pairwise (rs : List Entity) :
    ∀ (acc : List Entity), acc.Pairwise disjointE →
      (rs.foldl
        (fun merged r =>
          if merged.any (overlapsB r.start r.stop) then merged else merged ++ [r])
        acc).Pairwise disjointE := by
  induction rs with
  | nil => intro acc hacc; simpa using hacc
  | cons r rest ih =>
    intro acc hacc
    simp only [List.foldl_cons]
    by_cases hov : acc.any (overlapsB r.start r.stop)
    · simpa [hov] using ih acc hacc
    · have hall : ∀ m ∈ acc, overlapsB r.start r.stop m = false := by
        simpa [List.any_eq_true] using hov
      have happ : (acc ++ [r]).Pairwise disjointE := by
        rw [List.pairwise_append]
        refine ⟨hacc, List.pairwise_singleton _ _, ?_⟩
        intro a ha b hb
        have hb2 : b = r := by simpa using hb
        subst hb2
        have h2 := hall a ha
        simp [overlapsB] at h2
        unfold disjointE
        omega
      simpa [hov] using ih _ happ

/-! ### `apply_replacements` correctness -/

theorem applyLoop_spec (text : List Char) :
    ∀ (l : List Entity) (acc : List Char) (recs : List Record),
      applyLoop text l acc recs =
        ((l.filter (keepB text)).foldl (spliceAt text) acc,
         ((l.filter (keepB text)).map (mkRecord text)).reverse ++ recs) := by
  intro l
  induction l with
  | nil => intro acc recs; simp [applyLoop]
  | cons e rest ih =>
    intro acc recs
    by_cases h1 : get_replacement e.entity_type (pySlice text e.start e.stop)
        = pySlice text e.start e.stop
    · have hk : keepB text e = false := by simp [keepB, h1]
      simp only [applyLoop]
      rw [if_pos h1, List.filter_cons_of_neg (by simp [hk])]
      exact ih acc recs
    · by_cases h2 : e.stop > text.length ∨ e.start ≥ e.stop
      · have hk : keepB text e = false := by
          simp only [keepB, Bool.and_eq_false_iff, decide_eq_false_iff_not, not_lt, not_le]
          omega
        simp only [applyLoop]
        rw [if_neg h1, if_pos h2, List.filter_cons_of_neg (by simp [hk])]
        exact ih acc recs
      · have hk : keepB text e = true := by
          simp only [keepB, Bool.and_eq_true, decide_eq_true_eq]
          refine ⟨⟨h1, ?_⟩, ?_⟩ <;> omega
        simp only [applyLoop]
        rw [if_neg h1, if_neg h2, List.filter_cons_of_pos (by simp [hk])]
        rw [ih]
        simp only [List.foldl_cons, List.map_cons, List.reverse_cons, List.append_assoc,
          List.singleton_append, spliceAt]

theorem redactAsc_take (text : List Char) (m : Nat) (hm2 : m ≤ text.length) :
    ∀ (spans : List Entity), (∀ e ∈ spans, m ≤ e.start) →
      (redactAsc text spans).take m = text.take m := by
  intro spans
  induction spans with
  | nil => intro _; rfl
  | cons e rest ih =>
    intro hall
    have he := hall e (List.mem_cons_self e rest)
    simp only [redactAsc]
    rw [List.take_append_of_le_length
        (by simp [List.length_take, List.length_append]; omega),
      List.take_append_of_le_length (by simp [List.length_take]; omega),
      List.take_take, min_eq_left he]

theorem foldr_splice_eq_redact (text : List Char) :
    ∀ (ks : List Entity),
      ks.Pairwise (fun a b => a.stop ≤ b.start) →
      (∀ e ∈ ks, e.start < e.stop ∧ e.stop ≤ text.length) →
      ks.foldr (fun e acc => spliceAt text acc e) text = redactAsc text ks := by
  intro ks
  induction ks with
  | nil => intro _ _; rfl
  | cons e rest ih =>
    intro hp hv
    rw [List.pairwise_cons] at hp
    obtain ⟨hhead, hrest⟩ := hp
    have hve := hv e (List.mem_cons_self e rest)
    simp only [List.foldr_cons]
    rw [ih hrest (fun x hx => hv x (List.mem_cons_of_mem e hx))]
    show spliceAt text (redactAsc text rest) e = redactAsc text (e :: rest)
    unfold spliceAt
    show _ ++ _ ++ _ = text.take e.start ++ _ ++ _
    rw [redactAsc_take text e.start (by omega) rest
      (fun x hx => by have := hhead x hx; omega)]

theorem apply_replacements_eq_redact (text : List Char) (entities : List Entity)
    (hd : entities.Pairwise disjointE) :
    ∃ ks : List Entity,
      List.Perm ks (entities.filter (keepB text)) ∧
      ks.Pairwise (fun a b => a.stop ≤ b.start) ∧
      apply_replacements text entities = (redactAsc text ks, ks.map (mkRecord text)) := by
  by_cases hne : entities.isEmpty
  · have : entities = [] := List.isEmpty_iff.mp hne
    subst this
    exact ⟨[], List.Perm.refl _, List.Pairwise.nil, by simp [apply_replacements, redactAsc]⟩
  · have hsort : (isortBy startGe entities).Pairwise (fun a b => startGe a b = true) :=
      isortBy_pairwise startGe startGe_total startGe_trans entities
    have hperm : List.Perm (isortBy startGe entities) entities := isortBy_perm startGe entities
    have hds_disj : (isortBy startGe entities).Pairwise disjointE :=
      hperm.symm.pairwise hd (fun h => disjointE_symm h)
    set kept := (isortBy startGe entities).filter (keepB text) with hkept
    have hkept_sorted : kept.Pairwise (fun a b => startGe a b = true) :=
      hsort.filter _
    have hkept_disj : kept.Pairwise disjointE := hds_disj.filter _
    have hval : ∀ e ∈ kept, e.start < e.stop ∧ e.stop ≤ text.length := by
      intro e he
      have := (List.mem_filter.mp he).2
      simp only [keepB, Bool.and_eq_true, decide_eq_true_eq] at this
      exact ⟨this.1.2, this.2⟩
    have hrev_sorted : kept.reverse.Pairwise (fun a b => a.start ≤ b.start) := by
      rw [List.pairwise_reverse]
      exact hkept_sorted.imp (by intro a b h; simpa [startGe] using h)
    have hrev_disj : kept.reverse.Pairwise disjointE := by
      rw [List.pairwise_reverse]
      exact hkept_disj.imp (fun h => disjointE_symm h)
    have hrev_val : ∀ e ∈ kept.reverse, e.start < e.stop ∧ e.stop ≤ text.length :=
      fun e he => hval e (List.mem_reverse.mp he)
    have hchain : kept.reverse.Pairwise (fun a b => a.stop ≤ b.start) := by
      have hand := List.Pairwise.and hrev_disj hrev_sorted
      refine hand.imp_of_mem ?_
      intro a b ha hb hab
      obtain ⟨hdis, hle⟩ := hab
      have hvb := hrev_val b hb
      rcases hdis with h | h
      · exact h
      · omega
    refine ⟨kept.reverse, ?_, hchain, ?_⟩
    · exact (List.reverse_perm kept).trans (hperm.filter _)
    · unfold apply_replacements
      rw [if_neg hne, applyLoop_spec]
      refine Prod.ext ?_ ?_
      · show kept.foldl (spliceAt text) text = redactAsc text kept.reverse
        conv_lhs => rw [← List.reverse_reverse kept]
        rw [List.foldl_reverse]
        exact foldr_splice_eq_redact text kept.reverse hchain hrev_val
      · show (kept.map (mkRecord text)).reverse ++ [] = kept.reverse.map (mkRecord text)
        rw [List.append_nil, List.map_reverse]

theorem apply_replacements_records_sorted (text : List Char) (entities : List Entity) :
    ((apply_replacements text entities).2).Pairwise (fun r s => r.start ≤ s.start) := by
  unfold apply_replacements
  by_cases hne : entities.isEmpty
  · simp [hne]
  · rw [if_neg hne, applyLoop_spec]
    show ((((isortBy startGe entities).filter (keepB text)).map
      (mkRecord text)).reverse ++ []).Pairwise _
    rw [List.append_nil, List.pairwise_reverse, List.pairwise_map]
    have hsort : (isortBy startGe entities).Pairwise (fun a b => startGe a b = true) :=
      isortBy_pairwise startGe startGe_total startGe_trans entities
    exact (hsort.filter _).imp (by intro a b h; simpa [startGe, mkRecord] using h)

/-! ### Survival of text regions disjoint from every span -/

theorem isInfix_append_left {x A : List Char} (B : List Char)
    (h : List.IsInfix x A) : List.IsInfix x (A ++ B) := by
  obtain ⟨s, t, hst⟩ := h
  exact ⟨s, t ++ B, by rw [← hst]; simp [List.append_assoc]⟩

theorem isInfix_append_right {x B : List Char} (A : List Char)
    (h : List.IsInfix x B) : List.IsInfix x (A ++ B) := by
  obtain ⟨s, t, hst⟩ := h
  exact ⟨A ++ s, t, by rw [← hst]; simp [List.append_assoc]⟩

theorem slice_infix_drop (text : List Char) (a b m : Nat) (hma : m ≤ a)
    (hab : a ≤ b) (hb : b ≤ text.length) :
    List.IsInfix (pySlice text a b) (text.drop m) := by
  refine ⟨((text.take b).drop m).take (a - m), text.drop b, ?_⟩
  have h1 : text.drop m = ((text.take b).drop m) ++ text.drop b := by
    conv_lhs => rw [← List.take_append_drop b text]
    rw [List.drop_append_of_le_length (by simp [List.length_take]; omega)]
  have h2 : ((text.take b).drop m).take (a - m) ++ pySlice text a b
      = (text.take b).drop m := by
    unfold pySlice
    conv_rhs => rw [← List.take_append_drop (a - m) ((text.take b).drop m)]
    rw [List.drop_drop, Nat.add_sub_cancel' hma]
  rw [h1]
  conv_rhs => rw [← h2]

theorem redactAsc_infix (text p : List Char) (a m : Nat)
    (hma : m ≤ a) (hb : a + p.length ≤ text.length) :
    ∀ (spans : List Entity),
      spans.Pairwise (fun x y => x.stop ≤ y.start) →
      (∀ e ∈ spans, a + p.length ≤ e.start ∨ e.stop ≤ a) →
      (∀ e ∈ spans, m ≤ e.start) →
      List.IsInfix (pySlice text a (a + p.length)) ((redactAsc text spans).drop m) := by
  intro spans
  induction spans generalizing m with
  | nil =>
    intro _ _ _
    exact slice_infix_drop text a (a + p.length) m hma (by omega) hb
  | cons e rest ih =>
    intro hchain hdis hm
    rw [List.pairwise_cons] at hchain
    obtain ⟨hhead, hrest⟩ := hchain
    have hme := hm e (List.mem_cons_self e rest)
    simp only [redactAsc]
    rw [List.drop_append_of_le_length
      (by simp [List.length_take, List.length_append]; omega)]
    rcases hdis e (List.mem_cons_self e rest) with hcase | hcase
    · -- the occurrence lies entirely before this span
      apply isInfix_append_left
      rw [List.drop_append_of_le_length (by simp [List.length_take]; omega)]
      apply isInfix_append_left
      have hinf := slice_infix_drop (text.take e.start) a (a + p.length) m hma
        (by omega) (by simp [List.length_take]; omega)
      rwa [show pySlice (text.take e.start) a (a + p.length) = pySlice text a (a + p.length)
        from by unfold pySlice; rw [List.take_take, min_eq_left hcase]] at hinf
    · -- the occurrence lies entirely after this span: recurse with m := e.stop
      apply isInfix_append_right
      exact ih e.stop hcase hrest
        (fun x hx => hdis x (List.mem_cons_of_mem e hx))
        (fun x hx => hhead x hx)

/-! ### Evaluation of location coalescing on the unbounded family (C6) -/

theorem pySlice_after (A B : List Char) (k m : Nat) (hA : A.length = k) :
    pySlice (A ++ B) k (k + m) = B.take m := by
  unfold pySlice
  subst hA
  rw [List.take_append, List.drop_left]

theorem bigText_length (n : Nat) : (bigText n).length = 2 * n + 3 := by
  simp [bigText]
  omega

theorem bigGap (n : Nat) :
    pySlice (bigText n) (n + 1) (n + 2) = [' '] := by
  have h := pySlice_after (List.replicate (n + 1) 'a')
    (' ' :: List.replicate (n + 1) 'a') (n + 1) 1 (by simp)
  simpa [bigText] using h

theorem bigFull (n : Nat) : pySlice (bigText n) 0 (2 * n + 3) = bigText n := by
  unfold pySlice
  rw [List.drop_zero]
  exact List.take_of_length_le (by rw [bigText_length])

theorem mal_big_merges (n : Nat) :
    merge_adjacent_locations [bigLoc1 n, bigLoc2 n] (bigText n) = [bigMerged n] := by
  have h1 : isLocationType (bigLoc1 n) = true := rfl
  have h2 : isLocationType (bigLoc2 n) = true := rfl
  have hcond : (decide ((bigLoc2 n).start - (bigLoc1 n).stop ≤ 20)
      && gapSepOnly (pySlice (bigText n) (bigLoc1 n).stop (bigLoc2 n).start)) = true := by
    show (decide (n + 2 - (n + 1) ≤ 20)
      && gapSepOnly (pySlice (bigText n) (n + 1) (n + 2))) = true
    rw [bigGap n, Bool.and_eq_true, decide_eq_true_eq]
    exact ⟨by omega, by decide⟩
  have hdrop : (bigText n).drop (2 * n + 3) = [] :=
    List.drop_of_length_le (by rw [bigText_length])
  have hle : startLe (bigLoc1 n) (bigLoc2 n) = true := by
    simp [startLe, bigLoc1, bigLoc2]
  unfold merge_adjacent_locations
  rw [if_neg (by simp)]
  dsimp only
  simp only [List.filter_cons, List.filter_nil, h1, h2, Bool.not_true, if_true, if_false,
    Bool.false_eq_true, List.length_cons, List.length_nil]
  rw [if_neg (by omega)]
  simp only [isortBy, List.foldr_cons, List.foldr_nil, insertLe, hle, if_true]
  simp only [coalesceLocs, hcond, if_true]
  simp only [List.map_cons, List.map_nil, absorbZip]
  rw [show zipMatchEnd ((bigText n).drop ({ bigLoc1 n with
      stop := (bigLoc2 n).stop
      text := pySlice (bigText n) (bigLoc1 n).start (bigLoc2 n).stop
      entity_type := "LOCATION"
      score := max (bigLoc1 n).score (bigLoc2 n).score } : Entity).stop) = none from by
    show zipMatchEnd ((bigText n).drop (2 * n + 3)) = none
    rw [hdrop]
    rfl]
  simp only [List.nil_append, isortBy, List.foldr_cons, List.foldr_nil, insertLe]
  show [({ bigLoc1 n with
      stop := (bigLoc2 n).stop
      text := pySlice (bigText n) (bigLoc1 n).start (bigLoc2 n).stop
      entity_type := "LOCATION"
      score := max (bigLoc1 n).score (bigLoc2 n).score } : Entity)] = [bigMerged n]
  have : pySlice (bigText n) (bigLoc1 n).start (bigLoc2 n).stop = bigText n := by
    show pySlice (bigText n) 0 (2 * n + 3) = bigText n
    exact bigFull n
  rw [this]
  show [({ entity_type := "LOCATION"
           start := 0
           stop := 2 * n + 3
           text := bigText n
           score := max 1 1
           method := "ml" } : Entity)] = [bigMerged n]
  rw [max_self]
  rfl

/-! ## Claim theorems -/

/-- C1: the fail-safe is broken in the code.  When the model detector
    throws, the inner handler swallows the failure with an empty entity
    list, the supplementary regex step is disabled, and the endpoint
    returns the original input text unmodified - here for an input whose
    SSN the spec requires to be redacted.  The claim (and the function's
    own docstring, "Never returns original text on error") says this must
    never happen, so the code contradicts its own documentation. -/
theorem c1_model_fault_returns_original :
    anonymizePrimary (.error ()) c1text none = some (c1text, []) := by decide

/-- C2 is false as stated: with arbitrary entity lists, every one of the
    three operations can return overlapping spans.  `merge_entities` keeps
    overlapping model spans untouched; the phone repair extends a span into
    its left neighbour; location coalescing swallows a non-location span
    sitting inside a separator-and-digit gap - the latter two even on
    pairwise non-overlapping inputs. -/
theorem c2_overlap_counterexample :
    (¬ (merge_entities [c2mlA, c2mlB] []).Pairwise disjointE) ∧
    (c2phoneIn.Pairwise disjointE ∧
      post_process_phone_spans c2phoneIn c2phoneText = some c2phoneOut ∧
      ¬ c2phoneOut.Pairwise disjointE) ∧
    (c2locIn.Pairwise disjointE ∧
      ¬ (merge_adjacent_locations c2locIn c2locText).Pairwise disjointE) :=
  ⟨by decide, ⟨by decide, by decide, by decide⟩, by decide, by decide⟩

/-- C2 (amended): whenever the model-entity list is itself pairwise
    non-overlapping, the Entity Merger returns a pairwise non-overlapping
    span list for every regex-entity list - each regex span is checked
    against the whole growing accepted set.  The Post-Processors do not
    unconditionally preserve the invariant (see the counterexample). -/
theorem c2_merge_entities_no_overlap_amended (ml regexE : List Entity)
    (h : ml.Pairwise disjointE) :
    (merge_entities ml regexE).Pairwise disjointE := by
  unfold merge_entities
  have hfold := merge_entities_foldl_pairwise regexE ml h
  exact (isortBy_perm startLe _).symm.pairwise hfold (fun hx => disjointE_symm hx)

theorem c2_merge_entities_no_overlap_witness :
    c2wMl.Pairwise disjointE ∧
    (merge_entities c2wMl c2wRegex).Pairwise disjointE :=
  ⟨by decide, c2_merge_entities_no_overlap_amended c2wMl c2wRegex (by decide)⟩

/-- C4: the claim is right and the code is wrong.  Filter 3 of
    `should_anonymize_entity` (the version-number exclusion) runs before
    and without any `IP_ADDRESS` exemption, so a dotted-quad IP literal
    such as `8.8.8.8` - not one of the hardcoded non-PII IPs - is
    suppressed.  This also makes filter 4's non-PII-IP list dead code,
    contradicting the code's own HIPAA documentation that IP addresses
    are detected PHI. -/
theorem c4_ip_suppressed_by_version_filter :
    should_anonymize_entity "IP_ADDRESS" (str "8.8.8.8") (str "") = false := by decide

/-- C5 is false as stated: the code takes the first character of the
    trimmed text, not the first alphabetic character.  On "1john" the
    spec-side reading yields the initial J, but the code returns the
    generic name placeholder because the first character is a digit. -/
theorem c5_first_char_counterexample :
    get_replacement "PERSON" (str "1john") = str "[redacted name]" ∧
    specPersonInitial (str "1john") = some 'J' ∧
    str "[redacted name]" ≠ ['J'] :=
  ⟨by decide, by decide, by decide⟩

/-- C5 (amended): for every PERSON-family entity type (case-insensitive),
    `get_replacement` returns the first character of the trimmed original
    text uppercased when that character is alphabetic, and the generic
    name placeholder otherwise (in particular whenever the trimmed text is
    empty or starts with a non-letter). -/
theorem c5_person_initial_amended (entity_type : String) (original : List Char)
    (h : ["PERSON", "PER", "NAME", "PATIENT_NAME"].contains (pyUpperS entity_type) = true) :
    get_replacement entity_type original =
      match pyStrip original with
      | [] => str "[redacted name]"
      | c :: _ =>
        if (Char.toUpper c).isAlpha then [Char.toUpper c] else str "[redacted name]" := by
  unfold get_replacement
  rw [if_pos h]
  cases hs : pyStrip original with
  | nil => simp [hs, pyIsAlphaStr]
  | cons c cs =>
    simp only [hs, List.take_succ_cons, List.take_zero, List.map_cons, List.map_nil]
    by_cases ha : (Char.toUpper c).isAlpha
    · rw [if_pos (by simp [pyIsAlphaStr, ha]), if_pos ha]
    · rw [if_neg (by simp [pyIsAlphaStr, ha]), if_neg ha]

theorem c5_person_initial_witness :
    (["PERSON", "PER", "NAME", "PATIENT_NAME"].contains (pyUpperS "PERSON") = true) ∧
    (get_replacement "PERSON" (str "John Smith") =
      match pyStrip (str "John Smith") with
      | [] => str "[redacted name]"
      | c :: _ =>
        if (Char.toUpper c).isAlpha then [Char.toUpper c] else str "[redacted name]") ∧
    get_replacement "PERSON" (str "John Smith") = ['J'] :=
  ⟨by decide, c5_person_initial_amended "PERSON" (str "John Smith") (by decide), by decide⟩

/-- C6 is false as stated: no maximum length cap exists.  For every
    candidate gap threshold `G` and cap `L`, the two-span family
    `bigLoc1 L`, `bigLoc2 L` (gap of one space) merges into a span of
    length `2L + 3 > L`, contradicting the claimed biconditional. -/
theorem c6_no_length_cap_counterexample : ¬ c6_claim := by
  rintro ⟨G, L, h⟩
  have h1 : isLocationType (bigLoc1 L) = true := rfl
  have h2 : isLocationType (bigLoc2 L) = true := rfl
  have h3 : (bigLoc1 L).stop ≤ (bigLoc2 L).start := by
    show L + 1 ≤ L + 2
    omega
  have hm := (h (bigText L) (bigLoc1 L) (bigLoc2 L) h1 h2 h3).mp
    (by rw [mal_big_merges]; rfl)
  have hcap := hm.2.2
  have : 2 * L + 3 - 0 ≤ L := hcap
  omega

/-- C6 (amended): two location-family spans (sorted by start) coalesce
    exactly when the gap between them is at most 20 characters and the gap
    text consists only of whitespace, commas, periods, hyphens and digits;
    no maximum-length cap is applied.  The merged span runs from the first
    span's start to the second span's end, its entity type is normalized to
    LOCATION and its score is the maximum of the two scores.  (The
    hypotheses on `zipMatchEnd` switch off trailing-ZIP absorption, which
    is a separate later step of the same function.) -/
theorem c6_pair_merge_amended (text : List Char) (e1 e2 : Entity)
    (h1 : isLocationType e1 = true) (h2 : isLocationType e2 = true)
    (hle : e1.start ≤ e2.start)
    (hz1 : zipMatchEnd (text.drop e1.stop) = none)
    (hz2 : zipMatchEnd (text.drop e2.stop) = none) :
    merge_adjacent_locations [e1, e2] text =
      if e2.start - e1.stop ≤ 20 ∧ gapSepOnly (pySlice text e1.stop e2.start) = true then
        [{ entity_type := "LOCATION"
           start := e1.start
           stop := e2.stop
           text := pySlice text e1.start e2.stop
           score := max e1.score e2.score
           method := e1.method }]
      else [e1, e2] := by
  have hles : startLe e1 e2 = true := by simp [startLe, hle]
  unfold merge_adjacent_locations
  rw [if_neg (by simp)]
  dsimp only
  simp only [List.filter_cons, List.filter_nil, h1, h2, Bool.not_true, if_true, if_false,
    Bool.false_eq_true, List.length_cons, List.length_nil]
  rw [if_neg (by omega)]
  simp only [isortBy, List.foldr_cons, List.foldr_nil, insertLe, hles, if_true]
  by_cases hc : e2.start - e1.stop ≤ 20 ∧ gapSepOnly (pySlice text e1.stop e2.start) = true
  · rw [if_pos hc]
    have hcb : (decide (e2.start - e1.stop ≤ 20)
        && gapSepOnly (pySlice text e1.stop e2.start)) = true := by
      rw [Bool.and_eq_true, decide_eq_true_eq]
      exact hc
    simp only [coalesceLocs, hcb, if_true]
    simp only [List.map_cons, List.map_nil, absorbZip]
    rw [show zipMatchEnd (text.drop ({ e1 with
        stop := e2.stop
        text := pySlice text e1.start e2.stop
        entity_type := "LOCATION"
        score := max e1.score e2.score } : Entity).stop) = none from hz2]
    simp only [List.nil_append, isortBy, List.foldr_cons, List.foldr_nil, insertLe]
  · rw [if_neg hc]
    have hcb : (decide (e2.start - e1.stop ≤ 20)
        && gapSepOnly (pySlice text e1.stop e2.start)) = false := by
      rw [Bool.and_eq_false_iff]
      rcases Decidable.not_and_iff_or_not.mp hc with hx | hx
      · exact Or.inl (by simpa using hx)
      · exact Or.inr (by simpa using hx)
    simp only [coalesceLocs, hcb, Bool.false_eq_true, if_false]
    simp only [List.map_cons, List.map_nil, absorbZip, hz1, hz2]
    simp only [List.nil_append, isortBy, List.foldr_cons, List.foldr_nil, insertLe, hles,
      if_true]

theorem c6_pair_merge_witness :
    isLocationType c6e1 = true ∧ isLocationType c6e2 = true ∧
    c6e1.start ≤ c6e2.start ∧
    zipMatchEnd (c6text.drop c6e1.stop) = none ∧
    zipMatchEnd (c6text.drop c6e2.stop) = none ∧
    merge_adjacent_locations [c6e1, c6e2] c6text =
      (if c6e2.start - c6e1.stop ≤ 20 ∧
          gapSepOnly (pySlice c6text c6e1.stop c6e2.start) = true then
        [{ entity_type := "LOCATION"
           start := c6e1.start
           stop := c6e2.stop
           text := pySlice c6text c6e1.start c6e2.stop
           score := max c6e1.score c6e2.score
           method := c6e1.method }]
      else [c6e1, c6e2]) :=
  ⟨by decide, by decide, by decide, by decide, by decide,
   c6_pair_merge_amended c6text c6e1 c6e2 (by decide) (by decide) (by decide)
     (by decide) (by decide)⟩

/-- C7: `apply_replacements` processes spans in descending start order and
    the record list always comes back ascending by start; under the
    precondition that the spans are pairwise non-overlapping, there is an
    ascending enumeration `ks` of exactly the non-skipped spans (those
    with a differing replacement and valid offsets) such that the returned
    text is the input text with each such span's substring replaced by
    `get_replacement`, and the records are those spans' records in order. -/
theorem c7_apply_replacements_spec :
    (∀ (text : List Char) (entities : List Entity),
      ((apply_replacements text entities).2).Pairwise (fun r s => r.start ≤ s.start)) ∧
    (∀ (text : List Char) (entities : List Entity), entities.Pairwise disjointE →
      ∃ ks : List Entity,
        List.Perm ks (entities.filter (keepB text)) ∧
        ks.Pairwise (fun a b => a.stop ≤ b.start) ∧
        apply_replacements text entities = (redactAsc text ks, ks.map (mkRecord text))) :=
  ⟨apply_replacements_records_sorted, apply_replacements_eq_redact⟩

theorem c7_apply_replacements_witness :
    c7ents.Pairwise disjointE ∧
    (∃ ks : List Entity,
      List.Perm ks (c7ents.filter (keepB c7text)) ∧
      ks.Pairwise (fun a b => a.stop ≤ b.start) ∧
      apply_replacements c7text c7ents = (redactAsc c7text ks, ks.map (mkRecord c7text))) :=
  ⟨by decide, c7_apply_replacements_spec.2 c7text c7ents (by decide)⟩

/-- C8: phone-span repair is idempotent on any text without two adjacent
    opening parentheses: a second pass leaves the output of the first pass
    unchanged, because an extended span's new preceding character can only
    be another opening parenthesis if the text contains a double one. -/
theorem c8_phone_repair_idempotent (text : List Char) (entities : List Entity)
    (h : hasDoubleParen text = false) :
    (post_process_phone_spans entities text).bind
        (fun l => post_process_phone_spans l text)
      = post_process_phone_spans entities text := by
  induction entities with
  | nil => rfl
  | cons e rest ih =>
    simp only [post_process_phone_spans]
    cases he : ppPhoneOne text e with
    | none => rfl
    | some e2 =>
      cases hr : post_process_phone_spans rest text with
      | none => rfl
      | some r =>
        have hr2 : post_process_phone_spans r text = some r := by
          rw [hr] at ih
          simpa using ih
        simp only [Option.bind_eq_bind, Option.some_bind]
        simp only [post_process_phone_spans, ppPhoneOne_idem text h e e2 he, hr2]

theorem c8_phone_repair_witness :
    hasDoubleParen c8text = false ∧
    (post_process_phone_spans c8ents c8text).bind
        (fun l => post_process_phone_spans l c8text)
      = post_process_phone_spans c8ents c8text :=
  ⟨by decide, c8_phone_repair_idempotent c8text c8ents (by decide)⟩

/-- C9: `merge_adjacent_locations` is the identity on any entity list that
    contains at most one location-family entity: the early return fires
    before coalescing and trailing-ZIP absorption, so a lone location span
    is never extended. -/
theorem c9_merge_adjacent_locations_identity (entities : List Entity) (text : List Char)
    (h : (entities.filter isLocationType).length ≤ 1) :
    merge_adjacent_locations entities text = entities := by
  unfold merge_adjacent_locations
  by_cases he : entities.isEmpty
  · rw [if_pos he]
  · rw [if_neg he]
    dsimp only
    rw [if_pos h]

theorem c9_merge_adjacent_locations_witness :
    (c9ents.filter isLocationType).length ≤ 1 ∧
    merge_adjacent_locations c9ents c9text = c9ents :=
  ⟨by decide, c9_merge_adjacent_locations_identity c9ents c9text (by decide)⟩

/-- C10: in the anonymize endpoint's ML filtering step, every analyzer
    result whose matched text contains the (non-empty) pseudonym as a
    case-insensitive substring is dropped: the containment branch sets the
    overlap flag irrespective of the protected-range check, so no entity
    in the filtered output contains the pseudonym. -/
theorem c10_pseudonym_containment_dropped (text p : List Char) (results : List MlResult)
    (hp : p ≠ []) :
    ∀ e ∈ filterMl text (some p) results,
      containsSub (pyLower p) (pyLower e.text) = false := by
  intro e he
  unfold filterMl at he
  rw [List.mem_filterMap] at he
  obtain ⟨r, -, hr⟩ := he
  dsimp only at hr
  split at hr
  · cases hr
  · rename_i hov
    have hcf : containsSub (pyLower p) (pyLower (pySlice text r.start r.stop)) = false := by
      by_contra hcc
      rw [Bool.not_eq_false] at hcc
      apply hov
      rw [Bool.and_eq_true]
      refine ⟨?_, hcc⟩
      simpa [List.isEmpty_iff] using hp
    split at hr
    · cases hr
    · split at hr
      · injection hr with h3
        rw [← h3]
        exact hcf
      · cases hr

/-- C3 is false as stated: the non-empty pseudonym "," occurs in
    "Oakland, CA", yet adjacent-location coalescing swallows the comma gap
    between the two model spans, and the anonymized text
    "[redacted location]" no longer contains the pseudonym. -/
theorem c3_pseudonym_lost_counterexample :
    (str "," ≠ []) ∧
    containsSub (str ",") c3text = true ∧
    anonymizePrimary (.ok c3ml) c3text (some (str ","))
      = some (str "[redacted location]", [c3rec]) ∧
    containsSub (str ",") (str "[redacted location]") = false :=
  ⟨by decide, by decide, by decide, by decide⟩

/-- C3 (amended): pseudonym preservation holds whenever the post-processed
    span list leaves every occurrence untouched.  For any exact occurrence
    of the non-empty pseudonym at offset `a`, if the phone pass succeeds
    and the final (post-processed) span list is pairwise non-overlapping
    with every span lying entirely before or after the occurrence, then the
    anonymize flow returns a text that still contains the pseudonym
    unmodified.  The ML filter already guarantees that no model span
    overlaps or contains an occurrence; the extra hypothesis is what the
    post-processors can violate (see the counterexample). -/
theorem c3_pseudonym_preserved_amended
    (mlo : Except Unit (List MlResult)) (text p : List Char) (a : Nat) (mid : List Entity)
    (hp : p ≠ [])
    (hocc : pySlice text a (a + p.length) = p)
    (hlen : a + p.length ≤ text.length)
    (hmid : post_process_phone_spans
        (merge_entities (mlEntitiesOf mlo text (some p)) []) text = some mid)
    (hdisj : (merge_adjacent_locations mid text).Pairwise disjointE)
    (hfar : ∀ e ∈ merge_adjacent_locations mid text,
        a + p.length ≤ e.start ∨ e.stop ≤ a) :
    ∃ out, anonymizePrimary mlo text (some p) = some out ∧ List.IsInfix p out.1 := by
  refine ⟨apply_replacements text (merge_adjacent_locations mid text), ?_, ?_⟩
  · unfold anonymizePrimary
    dsimp only
    rw [hmid]
  · obtain ⟨ks, hperm, hchain, heq⟩ :=
      apply_replacements_eq_redact text (merge_adjacent_locations mid text) hdisj
    rw [heq]
    have hks_sub : ∀ e ∈ ks, e ∈ merge_adjacent_locations mid text := by
      intro e he
      exact List.mem_of_mem_filter (hperm.mem_iff.mp he)
    have h0 := redactAsc_infix text p a 0 (Nat.zero_le a) hlen ks hchain
      (fun e he => hfar e (hks_sub e he)) (fun e _ => Nat.zero_le _)
    rw [hocc, List.drop_zero] at h0
    exact h0

theorem c3_pseudonym_preserved_witness :
    (str "user1" ≠ ([] : List Char)) ∧
    (∃ out, anonymizePrimary (.ok c3wMl) c3wText (some (str "user1")) = some out ∧
      List.IsInfix (str "user1") out.1) :=
  ⟨by decide,
   c3_pseudonym_preserved_amended (.ok c3wMl) c3wText (str "user1") 16 c3wMid
     (by decide) (by decide) (by decide) (by decide) (by decide) (by decide)⟩

theorem c10_pseudonym_containment_witness :
    c10p ≠ [] ∧
    (∀ e ∈ filterMl c10text (some c10p) c10res,
      containsSub (pyLower c10p) (pyLower e.text) = false) :=
  ⟨by decide, c10_pseudonym_containment_dropped c10text c10p c10res (by decide)⟩

end Anonymizer
